import Mathlib

/-!
Verification of the opkcat catalog pipeline.

This file gives a shallow embedding of the opkcat repository's core logic:

* the badger-backed catalog store of `db.go` (records keyed by their raw
  content hash, per-source freshness blobs keyed by a reserved-`_url:`-prefixed
  percent-encoded URL, and the bleve full-text index), with the operations
  `IndexURL`, `MultiUpdateRecord`, `Query`, and the `recordExists` probe;
* the conditional-fetch record builder `Service.recordFromURL` of
  `fetcher.go`;
* the `If-None-Match` / `If-Modified-Since` header selection of
  `Getter.GetIfModified` in `cmd/main.go`;
* a labelled transition system for the `Service.Run` / `Service.Stop`
  scheduler handshake of `fetcher.go`.

Modelling conventions: byte sequences are `List Nat`; `time.Time` values are
`Nat` with `0` as the zero time; badger is an association map whose writes
inside one `db.Update` closure are buffered in a transaction copy that is
committed on success and discarded on error; `url.PathEscape` is injective, so
freshness entries are keyed by the raw URL in a keyspace separate from record
hashes (the reserved `_url:` prefix of the persisted key layout keeps the two
entity types from colliding); gob encoding is injective, so stored values are
held directly.  The bleve index accepts one document per call and may fail;
which calls fail is abstracted by a `Record → Bool` parameter, and the match
semantics of a bleve search is abstracted by a `String → Record → Bool`
parameter, while the result-size cap and the `Entries.Name` sort ordering that
`Query` requests are modelled concretely.
-/

namespace Opkcat

/-- One desktop entry extracted from an opk archive (db.Entry in db.go). -/
structure Entry where
  name : String
  description : String
  type : String
  categories : List String
  icon : List Nat
deriving Repr, DecidableEq

/-- A catalog record (db.Record in db.go). -/
structure Record where
  url : String
  hash : List Nat
  date : Nat
  etag : String
  entries : List Entry
deriving Repr, DecidableEq

/-- The freshness blob stored per source URL (db.freshness in db.go). -/
structure Freshness where
  date : Nat
  etag : String
deriving Repr, DecidableEq

/-- The primary badger store: record blobs keyed by raw content hash, and
freshness blobs keyed by source URL (the `_url:` reserved prefix of the
persisted key layout keeps the two keyspaces apart). -/
structure Store where
  recs : List (List Nat × Record)
  fresh : List (String × Freshness)
deriving Repr, DecidableEq

/-- The full database handle: primary store plus the bleve search index,
which maps a document id (the content hash) to the indexed record. -/
structure DB where
  store : Store
  index : List (List Nat × Record)
deriving Repr, DecidableEq

/-- Store with no keys at all. -/
def emptyStore : Store := ⟨[], []⟩

/-- Database with an empty primary store and an empty search index. -/
def emptyDB : DB := ⟨emptyStore, []⟩

/-- txn.Get / item.Value on an association map: the binding stored at
exactly the key `k`, if any. -/
def getKey {α β : Type} [DecidableEq α] : List (α × β) → α → Option β
  | [], _ => none
  | kv :: tl, k => if kv.1 = k then some kv.2 else getKey tl k

/-- txn.Set on an association map: badger (and bleve) overwrite the binding
for that key, keeping keys unique. -/
def putKey {α β : Type} [DecidableEq α] (l : List (α × β)) (k : α) (v : β) :
    List (α × β) :=
  (k, v) :: l.filter (fun kv => !decide (kv.1 = k))

/-- Lookup of the record blob stored at exactly the key `h`. -/
def lookupRec (s : Store) (h : List Nat) : Option Record :=
  getKey s.recs h

/-- Lookup of the freshness blob stored for the source URL `u`
(db.lastUpdated reading the `_url:`-prefixed key). -/
def lookupFresh (s : Store) (u : String) : Option Freshness :=
  getKey s.fresh u

/-- Lookup of the indexed document for id `h` in the search index. -/
def lookupIdx (idx : List (List Nat × Record)) (h : List Nat) : Option Record :=
  getKey idx h

/-- txn.Set on a record key. -/
def setRec (s : Store) (k : List Nat) (r : Record) : Store :=
  { s with recs := putKey s.recs k r }

/-- txn.Set on a freshness key. -/
def setFresh (s : Store) (u : String) (f : Freshness) : Store :=
  { s with fresh := putKey s.fresh u f }

/-- index.Index: bleve overwrites the document stored under the id `k`. -/
def setIdx (idx : List (List Nat × Record)) (k : List Nat) (r : Record) :
    List (List Nat × Record) :=
  putKey idx k r

/-- Handle.recordExists (db.go): Seek(hash) then ValidForPrefix(hash), i.e.
the probe is true when some stored record key has `h` as a prefix; the value
is never read. -/
def recordExists (s : Store) (h : List Nat) : Bool :=
  s.recs.any (fun kv => h.isPrefixOf kv.1)

/-- Handle.IndexURL (db.go): inside one update transaction, read the
freshness for the URL; if present do nothing, otherwise store a zero-valued
freshness blob for it.  The URL is not validated. -/
def IndexURL (s : Store) (u : String) : Store :=
  match lookupFresh s u with
  | some _ => s
  | none => setFresh s u ⟨0, ""⟩

/-- Handle.updateRecord (db.go): within the current transaction, Set the
record blob at its hash key and Set the freshness blob of the record's source
URL.  The trailing index.Index call is modelled separately in the batch loop
because the bleve write is not part of the badger transaction. -/
def updateRecord (txn : Store) (rec : Record) : Store :=
  setFresh (setRec txn rec.hash rec) rec.url ⟨rec.date, rec.etag⟩

/-- Result of Handle.MultiUpdateRecord: the database afterwards, the count of
newly inserted records, and whether the call returned an error. -/
structure UpdateResult where
  db : DB
  count : Nat
  errored : Bool
deriving Repr, DecidableEq

/-- The loop body of Handle.MultiUpdateRecord (db.go) running inside one
db.Update closure.  `base` is the store as of transaction start; `txn` is the
transaction's view (badger reads see the pending writes of the same
transaction).  A record with an empty hash, or a failing index.Index call,
makes the closure return an error, which discards the badger transaction —
the committed store reverts to `base` — while index writes already performed
by earlier iterations stay, since bleve is not covered by the transaction.
`idxOk` tells which index.Index calls succeed. -/
def multiUpdateLoop (idxOk : Record → Bool) (base : Store) :
    Store → List (List Nat × Record) → Nat → List Record → UpdateResult
  | txn, idx, count, [] => ⟨⟨txn, idx⟩, count, false⟩
  | txn, idx, count, rec :: rest =>
    if rec.hash = [] then ⟨⟨base, idx⟩, count, true⟩
    else if recordExists txn rec.hash then
      multiUpdateLoop idxOk base txn idx count rest
    else
      if idxOk rec then
        multiUpdateLoop idxOk base (updateRecord txn rec)
          (setIdx idx rec.hash rec) (count + 1) rest
      else ⟨⟨base, idx⟩, count, true⟩

/-- Handle.MultiUpdateRecord (db.go): one badger update transaction over the
whole batch, committing only when every record was either skipped or written
(record blob + freshness blob + index document). -/
def MultiUpdateRecord (idxOk : Record → Bool) (db : DB)
    (records : List Record) : UpdateResult :=
  multiUpdateLoop idxOk db.store db.store db.index 0 records

/-- An index.Index call that always succeeds (bleve reporting no error). -/
def allIdxOk : Record → Bool := fun _ => true

/-- The per-source freshness row returned by Handle.KnownURLs (db.URLFreshness
in db.go). -/
structure URLFreshness where
  url : String
  lastUpdate : Nat
  etag : String
deriving Repr, DecidableEq

/-- The slice of the transport's http.Response that recordFromURL inspects:
the status code, the Header["Etag"] value list, and the body bytes. -/
structure HttpResponse where
  status : Nat
  etagHeader : List String
  body : List Nat
deriving Repr, DecidableEq

/-- The readEtag local of recordFromURL (fetcher.go): the first Etag header
value when one is present, the empty string otherwise. -/
def readEtagOf (resp : HttpResponse) : String :=
  match resp.etagHeader with
  | [] => ""
  | e :: _ => e

/-- Outcome of Service.recordFromURL: the nil-record sentinel meaning the
source is up to date, a build failure carrying an error message, or a fully
built record. -/
inductive FetchOutcome where
  | unchanged
  | failure (msg : String)
  | built (rec : Record)
deriving Repr, DecidableEq

/-- Service.recordFromURL (fetcher.go): given the stored freshness of a
source and the transport response, return 304 responses and matching-etag 200
responses as the `unchanged` sentinel (nil record, nil error), other non-200
statuses as an error, and otherwise download the body, hash it and extract
entries (Service.fromOPK).  The returned flag records whether the
download/hash/extract path was entered at all.  `now` stands for
time.Now().UTC(); `hashOf` for the SHA-256 of the downloaded bytes; `extract`
for the result of unsquashfs plus desktop-entry parsing, whose failure is a
build failure.  The `unchanged` paths return before the temporary download
file is even created, so no download, hashing or extraction happens there. -/
def recordFromURL (opkurl : URLFreshness) (resp : HttpResponse) (now : Nat)
    (hashOf : List Nat → List Nat) (extract : Except String (List Entry)) :
    FetchOutcome × Bool :=
  if resp.status = 304 then (.unchanged, false)
  else if resp.status ≠ 200 then
    (.failure ("http fetch error: " ++ toString resp.status), false)
  else
    if readEtagOf resp = opkurl.etag then (.unchanged, false)
    else
      match extract with
      | .error e => (.failure e, true)
      | .ok entries =>
        (.built ⟨opkurl.url, hashOf resp.body, now, readEtagOf resp, entries⟩,
          true)

/-- A conditional request header set by Getter.GetIfModified. -/
inductive ReqHeader where
  | ifNoneMatch (etag : String)
  | ifModifiedSince (t : Nat)
deriving Repr, DecidableEq

/-- Getter.GetIfModified (cmd/main.go): the request carries the If-None-Match
header when the stored etag is non-empty, else the If-Modified-Since header
when the stored time is not the zero time, else neither — never both, or etag
matching would not work.  The URL only addresses the request. -/
def getIfModified (since : Nat) (etag : String) (url : String) :
    List ReqHeader :=
  let _ := url
  if etag ≠ "" then [.ifNoneMatch etag]
  else if since ≠ 0 then [.ifModifiedSince since]
  else []

/-- Sort key that the bleve search request of Handle.Query orders hits by
(SortBy "Entries.Name"): the name of the indexed record's entry. -/
def entriesNameKey (r : Record) : String :=
  match r.entries with
  | [] => ""
  | e :: _ => e.name

/-- Ordering of index documents by their Entries.Name sort key. -/
def docLE (a b : List Nat × Record) : Prop :=
  entriesNameKey a.2 ≤ entriesNameKey b.2

instance : DecidableRel docLE := fun a b =>
  inferInstanceAs (Decidable (entriesNameKey a.2 ≤ entriesNameKey b.2))

/-- Handle.Query (db.go): an empty query string is an error; otherwise the
bleve index is searched with a request capped at 100 hits sorted by
Entries.Name, and each hit id is resolved to its record blob in the primary
store, hits whose record blob is missing being logged and skipped.
`matchQ` abstracts bleve's match-query semantics; the cap and the ordering
the request asks for are modelled concretely over the indexed documents. -/
def Query (matchQ : String → Record → Bool) (db : DB) (qry : String) :
    Except String (List Record) :=
  if qry = "" then .error "empty query string"
  else
    let docs := db.index.filter (fun kv => matchQ qry kv.2)
    let hits := ((docs.insertionSort docLE).take 100).map (fun kv => kv.1)
    .ok (hits.filterMap (fun id => lookupRec db.store id))

/-- A store operation of the catalog API: registering a source URL
(Handle.IndexURL, reached through fetcher.Service.Add) or upserting a batch
(Handle.MultiUpdateRecord). -/
inductive StoreOp where
  | indexURL (url : String)
  | upsertBatch (records : List Record)
deriving Repr, DecidableEq

/-- Effect of one store operation on the database. -/
def applyOp (idxOk : Record → Bool) (db : DB) : StoreOp → DB
  | .indexURL u => ⟨IndexURL db.store u, db.index⟩
  | .upsertBatch rs => (MultiUpdateRecord idxOk db rs).db

/-- Effect of a sequence of store operations, first operation first. -/
def applyOps (idxOk : Record → Bool) (db : DB) (ops : List StoreOp) : DB :=
  ops.foldl (applyOp idxOk) db

/-- Every record blob in the store carries a non-empty content hash. -/
def recsNonEmptyHash (s : Store) : Prop :=
  ∀ kv ∈ s.recs, (kv.2).hash ≠ []

/-- Every freshness blob in the store is keyed by a non-empty URL. -/
def freshNonEmptyURL (s : Store) : Prop :=
  ∀ kv ∈ s.fresh, kv.1 ≠ ""

instance (s : Store) : Decidable (recsNonEmptyHash s) := by
  unfold recsNonEmptyHash; infer_instance

instance (s : Store) : Decidable (freshNonEmptyURL s) := by
  unfold freshNonEmptyURL; infer_instance

/-- Predicate on a store operation: it only mentions non-empty source URLs. -/
def opURLsNonEmpty : StoreOp → Prop
  | .indexURL u => u ≠ ""
  | .upsertBatch rs => ∀ r ∈ rs, r.url ≠ ""

instance (op : StoreOp) : Decidable (opURLsNonEmpty op) := by
  cases op <;> (unfold opURLsNonEmpty; infer_instance)

/-- Phase of the Service.Run goroutine (fetcher.go): looping in its select,
draining after receiving on the quit channel (Stop called, ticker stopped,
runFetch closed, waiting on wg.Wait), or returned (wg.Wait done, the deferred
close(s.quit) executed). -/
inductive Phase where
  | looping
  | stopping
  | done
deriving Repr, DecidableEq

/-- State of the Service.Stop caller: not yet called, blocked on the
receive-from-quit confirmation, or returned to its caller. -/
inductive StopCall where
  | notCalled
  | waiting
  | returned
deriving Repr, DecidableEq

/-- The synchronization skeleton of the fetch scheduler: the Run loop's
phase, the number of spawned fetch-cycle goroutines that have not yet run
wg.Done (the sync.WaitGroup counter), and the Stop caller's progress. -/
structure Sched where
  phase : Phase
  tasks : Nat
  stopped : StopCall
deriving Repr, DecidableEq

/-- Interleaving semantics of Service.Run and Service.Stop (fetcher.go):
`spawn` is the runFetch branch doing wg.Add(1) and launching a fetch cycle
(only possible while the select loop runs); `taskExit` is a fetch goroutine's
deferred wg.Done; `stopCall` is Stop's send on s.quit being received by the
select, moving Run into its shutdown branch; `waitDone` is wg.Wait returning
once the counter is zero, after which Run breaks out of the loop and its
deferred close(s.quit) runs; `stopReturn` is Stop's own receive from the now
closed s.quit channel, which unblocks only after that close. -/
inductive SchedStep : Sched → Sched → Prop where
  | spawn (t : Nat) (c : StopCall) :
      SchedStep ⟨.looping, t, c⟩ ⟨.looping, t + 1, c⟩
  | taskExit (p : Phase) (t : Nat) (c : StopCall) :
      SchedStep ⟨p, t + 1, c⟩ ⟨p, t, c⟩
  | stopCall (t : Nat) :
      SchedStep ⟨.looping, t, .notCalled⟩ ⟨.stopping, t, .waiting⟩
  | waitDone (c : StopCall) :
      SchedStep ⟨.stopping, 0, c⟩ ⟨.done, 0, c⟩
  | stopReturn (t : Nat) :
      SchedStep ⟨.done, t, .waiting⟩ ⟨.done, t, .returned⟩

/-- State of the scheduler right after Start: Run entering its select loop,
no cycle goroutines yet, Stop not called. -/
def schedInit : Sched := ⟨.looping, 0, .notCalled⟩

/-- States the scheduler can reach from start through any interleaving. -/
inductive SchedReach : Sched → Prop where
  | init : SchedReach schedInit
  | step {s t : Sched} : SchedReach s → SchedStep s t → SchedReach t

/-! Helper lemmas about the association-list store. -/

/-- A byte key is a prefix of itself. -/
theorem isPrefixOf_self_nat (l : List Nat) : l.isPrefixOf l = true := by
  induction l with
  | nil => rfl
  | cons a as ih => simp [List.isPrefixOf, ih]

/-- Filtering out bindings of one key does not change the lookup of a
different key. -/
theorem getKey_filter_ne {α β : Type} [DecidableEq α] (l : List (α × β))
    (k h : α) (hne : k ≠ h) :
    getKey (l.filter (fun kv => !decide (kv.1 = k))) h = getKey l h := by
  induction l with
  | nil => rfl
  | cons kv tl ih =>
    by_cases h1 : kv.1 = k
    · have h2 : kv.1 ≠ h := by rw [h1]; exact hne
      simp [List.filter_cons, getKey, h1, h2, hne, ih]
    · by_cases h2 : kv.1 = h <;>
        simp [List.filter_cons, getKey, h1, h2, hne, Ne.symm hne, ih]

/-- Overwriting one key does not change the lookup of a different key. -/
theorem getKey_putKey_ne {α β : Type} [DecidableEq α] (l : List (α × β))
    (k : α) (v : β) (h : α) (hne : k ≠ h) :
    getKey (putKey l k v) h = getKey l h := by
  simp [putKey, getKey, hne, getKey_filter_ne l k h hne]

/-- Reading back a just-written key. -/
theorem getKey_putKey_self {α β : Type} [DecidableEq α] (l : List (α × β))
    (k : α) (v : β) : getKey (putKey l k v) k = some v := by
  simp [putKey, getKey]

/-- Setting a record key leaves the lookup of any other record key alone. -/
theorem lookupRec_setRec_ne (s : Store) (k : List Nat) (r : Record)
    (h : List Nat) (hne : k ≠ h) :
    lookupRec (setRec s k r) h = lookupRec s h :=
  getKey_putKey_ne s.recs k r h hne

/-- Setting a freshness key leaves record lookups alone. -/
theorem lookupRec_setFresh (s : Store) (u : String) (f : Freshness)
    (h : List Nat) : lookupRec (setFresh s u f) h = lookupRec s h := rfl

/-- Setting a record key leaves freshness lookups alone. -/
theorem lookupFresh_setRec (s : Store) (k : List Nat) (r : Record)
    (u : String) : lookupFresh (setRec s k r) u = lookupFresh s u := rfl

/-- Setting a freshness key leaves the lookup of any other URL alone. -/
theorem lookupFresh_setFresh_ne (s : Store) (u : String) (f : Freshness)
    (v : String) (hne : u ≠ v) :
    lookupFresh (setFresh s u f) v = lookupFresh s v :=
  getKey_putKey_ne s.fresh u f v hne

/-- Reading back a just-set record key. -/
theorem lookupRec_setRec_self (s : Store) (k : List Nat) (r : Record) :
    lookupRec (setRec s k r) k = some r :=
  getKey_putKey_self s.recs k r

/-- Reading back a just-set freshness key. -/
theorem lookupFresh_setFresh_self (s : Store) (u : String) (f : Freshness) :
    lookupFresh (setFresh s u f) u = some f :=
  getKey_putKey_self s.fresh u f

/-- Reading back a just-indexed document. -/
theorem lookupIdx_setIdx_self (idx : List (List Nat × Record))
    (k : List Nat) (r : Record) : lookupIdx (setIdx idx k r) k = some r :=
  getKey_putKey_self idx k r

/-- The existence probe is monotone under setting a record key. -/
theorem recordExists_setRec (s : Store) (k : List Nat) (r : Record)
    (h : List Nat) (hex : recordExists s h = true) :
    recordExists (setRec s k r) h = true := by
  simp only [recordExists, List.any_eq_true] at hex ⊢
  obtain ⟨kv, hmem, hpfx⟩ := hex
  by_cases hk : kv.1 = k
  · exact ⟨(k, r), by simp [setRec, putKey], by rw [← hk]; exact hpfx⟩
  · exact ⟨kv, by simp [setRec, putKey, List.mem_filter, hmem, hk], hpfx⟩

/-- The existence probe ignores freshness keys. -/
theorem recordExists_setFresh (s : Store) (u : String) (f : Freshness)
    (h : List Nat) : recordExists (setFresh s u f) h = recordExists s h := rfl

/-- The existence probe is monotone across a record write. -/
theorem recordExists_updateRecord (txn : Store) (rec : Record) (h : List Nat)
    (hex : recordExists txn h = true) :
    recordExists (updateRecord txn rec) h = true := by
  unfold updateRecord
  rw [recordExists_setFresh]
  exact recordExists_setRec txn rec.hash rec h hex

/-- A record write makes its own hash key exist. -/
theorem recordExists_updateRecord_self (txn : Store) (rec : Record) :
    recordExists (updateRecord txn rec) rec.hash = true := by
  unfold updateRecord
  rw [recordExists_setFresh]
  simp [recordExists, setRec, putKey, List.any_cons, isPrefixOf_self_nat]

/-- When the probe is negative, no stored record binding has that exact
key. -/
theorem no_key_of_recordExists_false (s : Store) (h : List Nat)
    (hex : recordExists s h = false) : ∀ kv ∈ s.recs, kv.1 ≠ h := by
  intro kv hmem heq
  have : recordExists s h = true := by
    simp only [recordExists, List.any_eq_true]
    exact ⟨kv, hmem, by rw [heq]; exact isPrefixOf_self_nat h⟩
  simp [this] at hex

/-! Claim C8 — conditional-request header selection. -/

/-- C8: Getter.GetIfModified sets at most one of If-None-Match and
If-Modified-Since, never both: a non-empty etag wins and yields exactly the
If-None-Match header; with an empty etag a non-zero time yields exactly the
If-Modified-Since header; with an empty etag and the zero time no conditional
header is set at all. -/
theorem claim_C8 (since : Nat) (etag url : String) :
    (¬ ((∃ e, ReqHeader.ifNoneMatch e ∈ getIfModified since etag url) ∧
        (∃ t, ReqHeader.ifModifiedSince t ∈ getIfModified since etag url))) ∧
    (etag ≠ "" → getIfModified since etag url = [.ifNoneMatch etag]) ∧
    (etag = "" → since ≠ 0 →
      getIfModified since etag url = [.ifModifiedSince since]) ∧
    (etag = "" → since = 0 → getIfModified since etag url = []) := by
  unfold getIfModified
  by_cases he : etag = "" <;> by_cases hs : since = 0 <;> simp [he, hs]

/-- Witness for C8 at concrete inputs: a stored etag "E" with a non-zero
time yields only the If-None-Match header. -/
theorem claim_C8_witness :
    ("E" ≠ "" → getIfModified 7 "E" "http" = [.ifNoneMatch "E"]) ∧
    getIfModified 7 "E" "http" = [.ifNoneMatch "E"] := by
  refine ⟨(claim_C8 7 "E" "http").2.1, (claim_C8 7 "E" "http").2.1 ?_⟩
  decide

/-! Claim C10 — empty stored etag versus a 200 response with no Etag
header. -/

/-- C10: for a source whose stored etag is empty, a 200 response that
carries no Etag header makes recordFromURL take the etag-fallback branch
(empty reads equal) and return the unchanged sentinel without entering the
download/hash/extract path, whatever the body holds and whatever extraction
would have produced. -/
theorem claim_C10 (opkurl : URLFreshness) (resp : HttpResponse) (now : Nat)
    (hashOf : List Nat → List Nat) (extract : Except String (List Entry))
    (hetag : opkurl.etag = "") (hstatus : resp.status = 200)
    (hhdr : resp.etagHeader = []) :
    recordFromURL opkurl resp now hashOf extract =
      (FetchOutcome.unchanged, false) := by
  simp [recordFromURL, readEtagOf, hetag, hstatus, hhdr]

/-- Witness for C10: a freshly registered source (zero time, empty etag)
against a 200 response without an Etag header is classified unchanged and
nothing is downloaded. -/
theorem claim_C10_witness :
    (⟨"http://a.opk", 0, ""⟩ : URLFreshness).etag = "" ∧
    (⟨200, [], [7, 7]⟩ : HttpResponse).status = 200 ∧
    (⟨200, [], [7, 7]⟩ : HttpResponse).etagHeader = [] ∧
    recordFromURL ⟨"http://a.opk", 0, ""⟩ ⟨200, [], [7, 7]⟩ 3
      (fun b => b) (Except.ok []) = (FetchOutcome.unchanged, false) :=
  ⟨rfl, rfl, rfl,
    claim_C10 ⟨"http://a.opk", 0, ""⟩ ⟨200, [], [7, 7]⟩ 3
      (fun b => b) (Except.ok []) rfl rfl rfl⟩

/-! Claim C4 — classification of transport responses by recordFromURL. -/

/-- C4 counterexample: the claim says the unchanged sentinel is returned
exactly when the status is 304 or the response carries an Etag equal to the
stored one.  At a status-500 response whose Etag header equals the stored
etag the right-hand side of that biconditional holds, yet recordFromURL
returns a failure, not the sentinel: the etag-fallback comparison only runs
for 200 responses. -/
theorem claim_C4_cex :
    ((⟨500, ["e"], []⟩ : HttpResponse).status = 304 ∨
      readEtagOf ⟨500, ["e"], []⟩ = (⟨"u", 5, "e"⟩ : URLFreshness).etag) ∧
    (recordFromURL ⟨"u", 5, "e"⟩ ⟨500, ["e"], []⟩ 0 (fun b => b)
        (Except.ok [])).1 ≠ FetchOutcome.unchanged := by
  decide

/-- C4 amended: recordFromURL returns the unchanged sentinel exactly when
the status is 304, or the status is 200 and the response etag (empty when
the header is absent) equals the stored etag; the download/hash/extract path
is entered exactly when the status is 200 and the etags differ; and any
status other than 200 and 304 is reported as a build failure distinct from
the sentinel. -/
theorem claim_C4_amended (opkurl : URLFreshness) (resp : HttpResponse)
    (now : Nat) (hashOf : List Nat → List Nat)
    (extract : Except String (List Entry)) :
    ((recordFromURL opkurl resp now hashOf extract).1 = .unchanged ↔
      (resp.status = 304 ∨
        (resp.status = 200 ∧ readEtagOf resp = opkurl.etag))) ∧
    ((recordFromURL opkurl resp now hashOf extract).2 = true ↔
      (resp.status = 200 ∧ readEtagOf resp ≠ opkurl.etag)) ∧
    (resp.status ≠ 304 → resp.status ≠ 200 →
      (recordFromURL opkurl resp now hashOf extract).1 =
        .failure ("http fetch error: " ++ toString resp.status)) := by
  by_cases h304 : resp.status = 304
  · simp [recordFromURL, h304]
  · by_cases h200 : resp.status = 200
    · by_cases hmatch : readEtagOf resp = opkurl.etag
      · simp [recordFromURL, h304, h200, hmatch]
      · cases extract with
        | error e => simp [recordFromURL, h304, h200, hmatch]
        | ok entries => simp [recordFromURL, h304, h200, hmatch]
    · simp [recordFromURL, h304, h200]

/-- Witness for C4 (amended) at a concrete 304 response: the sentinel is
returned and no work is done. -/
theorem claim_C4_witness :
    ((recordFromURL ⟨"u", 5, "e"⟩ ⟨304, [], [1]⟩ 0 (fun b => b)
        (Except.ok [])).1 = .unchanged ↔
      ((⟨304, ([] : List String), [1]⟩ : HttpResponse).status = 304 ∨
        ((⟨304, ([] : List String), [1]⟩ : HttpResponse).status = 200 ∧
          readEtagOf ⟨304, [], [1]⟩ = (⟨"u", 5, "e"⟩ : URLFreshness).etag))) ∧
    (recordFromURL ⟨"u", 5, "e"⟩ ⟨304, [], [1]⟩ 0 (fun b => b)
        (Except.ok [])).1 = .unchanged :=
  ⟨(claim_C4_amended ⟨"u", 5, "e"⟩ ⟨304, [], [1]⟩ 0 (fun b => b)
      (Except.ok [])).1,
    ((claim_C4_amended ⟨"u", 5, "e"⟩ ⟨304, [], [1]⟩ 0 (fun b => b)
      (Except.ok [])).1).mpr (Or.inl rfl)⟩

/-! Claim C1 — a malformed record aborts the whole batch. -/

/-- Any batch containing a record with an empty hash makes the update loop
report an error and leaves the committed store at the transaction base. -/
theorem multiUpdateLoop_bad_hash (idxOk : Record → Bool) (base : Store) :
    ∀ (records : List Record) (txn : Store) (idx : List (List Nat × Record))
      (count : Nat), (∃ r ∈ records, r.hash = []) →
      (multiUpdateLoop idxOk base txn idx count records).errored = true ∧
      (multiUpdateLoop idxOk base txn idx count records).db.store = base := by
  intro records
  induction records with
  | nil => intro txn idx count h; simp at h
  | cons rec rest ih =>
    intro txn idx count h
    by_cases h1 : rec.hash = []
    · simp [multiUpdateLoop, h1]
    · have hrest : ∃ r ∈ rest, r.hash = [] := by
        rcases h with ⟨r, hmem, hr⟩
        rcases List.mem_cons.mp hmem with rfl | hmem'
        · exact absurd hr h1
        · exact ⟨r, hmem', hr⟩
      by_cases h2 : recordExists txn rec.hash
      · simpa [multiUpdateLoop, h1, h2] using ih txn idx count hrest
      · by_cases h3 : idxOk rec
        · simpa [multiUpdateLoop, h1, h2, h3] using
            ih (updateRecord txn rec) (setIdx idx rec.hash rec) (count + 1)
              hrest
        · simp [multiUpdateLoop, h1, h2, h3]

/-- C1: if any record of the batch has an empty hash, MultiUpdateRecord
returns an error and commits nothing: the primary store is exactly what it
was before the call, including for records that preceded the malformed one
in iteration order, because the whole badger transaction is discarded. -/
theorem claim_C1 (idxOk : Record → Bool) (db : DB) (records : List Record)
    (hbad : ∃ r ∈ records, r.hash = []) :
    (MultiUpdateRecord idxOk db records).errored = true ∧
    (MultiUpdateRecord idxOk db records).db.store = db.store :=
  multiUpdateLoop_bad_hash idxOk db.store records db.store db.index 0 hbad

/-- Witness for C1: a batch holding a good record followed by a hashless one
errors and persists neither record. -/
theorem claim_C1_witness :
    (∃ r ∈ [(⟨"a", [1], 1, "e", []⟩ : Record), ⟨"b", [], 2, "f", []⟩],
      r.hash = []) ∧
    (MultiUpdateRecord allIdxOk emptyDB
        [⟨"a", [1], 1, "e", []⟩, ⟨"b", [], 2, "f", []⟩]).errored = true ∧
    (MultiUpdateRecord allIdxOk emptyDB
        [⟨"a", [1], 1, "e", []⟩, ⟨"b", [], 2, "f", []⟩]).db.store =
      emptyDB.store :=
  ⟨by decide,
    claim_C1 allIdxOk emptyDB
      [⟨"a", [1], 1, "e", []⟩, ⟨"b", [], 2, "f", []⟩] (by decide)⟩

/-! Claim C2 — idempotence and content-hash dedup. -/

/-- When the probe is negative, filtering nothing changes: no binding has the
probed key, so a key-equality filter keeps the whole record list. -/
theorem filter_eq_nil_of_recordExists_false (s : Store) (h : List Nat)
    (hex : recordExists s h = false) :
    s.recs.filter (fun kv => decide (kv.1 = h)) = [] := by
  rw [List.filter_eq_nil_iff]
  intro kv hmem
  have := no_key_of_recordExists_false s h hex kv hmem
  simp [this]

/-- C2: upserting the same record twice inserts it only once, and two
records with the same content hash collapse to one stored record.  First
part: after upserting the batch [r] (r having a non-empty hash) the record's
hash exists in the store, the call did not error, and upserting [r] again
inserts 0 records and leaves the database untouched.  Second part: offering
one batch with two records of identical hash but different source URLs into
a store not containing that hash inserts exactly one record, and the store
afterwards holds exactly one record blob under that hash — the first
record. -/
theorem claim_C2 :
    (∀ (db : DB) (r : Record), r.hash ≠ [] →
      recordExists (MultiUpdateRecord allIdxOk db [r]).db.store r.hash =
        true ∧
      (MultiUpdateRecord allIdxOk db [r]).errored = false ∧
      (MultiUpdateRecord allIdxOk
        (MultiUpdateRecord allIdxOk db [r]).db [r]).count = 0 ∧
      (MultiUpdateRecord allIdxOk
        (MultiUpdateRecord allIdxOk db [r]).db [r]).db =
        (MultiUpdateRecord allIdxOk db [r]).db) ∧
    (∀ (db : DB) (r1 r2 : Record), r1.hash = r2.hash → r1.hash ≠ [] →
      r1.url ≠ r2.url → recordExists db.store r1.hash = false →
      (MultiUpdateRecord allIdxOk db [r1, r2]).count = 1 ∧
      ((MultiUpdateRecord allIdxOk db [r1, r2]).db.store.recs.filter
        (fun kv => decide (kv.1 = r1.hash))).length = 1 ∧
      lookupRec (MultiUpdateRecord allIdxOk db [r1, r2]).db.store r1.hash =
        some r1) := by
  constructor
  · intro db r hr
    by_cases hex : recordExists db.store r.hash
    · simp [MultiUpdateRecord, multiUpdateLoop, hr, hex]
    · have hex2 := recordExists_updateRecord_self db.store r
      simp [MultiUpdateRecord, multiUpdateLoop, hr, hex, allIdxOk, hex2]
  · intro db r1 r2 h12 hr hurl hex
    have hex2 : recordExists (updateRecord db.store r1) r2.hash = true := by
      rw [← h12]; exact recordExists_updateRecord_self db.store r1
    have hr2 : r2.hash ≠ [] := by rw [← h12]; exact hr
    have hfilter :
        ((updateRecord db.store r1).recs.filter
          (fun kv => decide (kv.1 = r1.hash))).length = 1 := by
      have hrecs : (updateRecord db.store r1).recs =
          (r1.hash, r1) :: db.store.recs.filter
            (fun kv => !decide (kv.1 = r1.hash)) := rfl
      rw [hrecs]
      rw [List.filter_cons]
      simp only [decide_eq_true_eq, if_pos rfl, decide_True, if_true]
      rw [List.filter_filter]
      have : ∀ kv : List Nat × Record,
          (decide (kv.1 = r1.hash) && !decide (kv.1 = r1.hash)) = false := by
        intro kv; by_cases hkv : kv.1 = r1.hash <;> simp [hkv]
      simp [this]
    have hlook : lookupRec (updateRecord db.store r1) r1.hash = some r1 := by
      unfold updateRecord
      rw [lookupRec_setFresh, lookupRec_setRec_self]
    simp [MultiUpdateRecord, multiUpdateLoop, hr, hr2, hex, hex2, allIdxOk,
      hfilter, hlook]

/-- Witness for C2: a record of hash [3] and two same-hash records from
different URLs, against the empty database. -/
theorem claim_C2_witness :
    ((⟨"a", [3], 1, "e", []⟩ : Record).hash ≠ [] ∧
      recordExists (MultiUpdateRecord allIdxOk emptyDB
        [⟨"a", [3], 1, "e", []⟩]).db.store [3] = true ∧
      (MultiUpdateRecord allIdxOk
        (MultiUpdateRecord allIdxOk emptyDB [⟨"a", [3], 1, "e", []⟩]).db
        [⟨"a", [3], 1, "e", []⟩]).count = 0) ∧
    ((MultiUpdateRecord allIdxOk emptyDB
        [⟨"a", [3], 1, "e", []⟩, ⟨"b", [3], 2, "f", []⟩]).count = 1 ∧
      ((MultiUpdateRecord allIdxOk emptyDB
        [⟨"a", [3], 1, "e", []⟩, ⟨"b", [3], 2, "f", []⟩]).db.store.recs.filter
          (fun kv => decide (kv.1 = [3]))).length = 1) := by
  have h1 := claim_C2.1 emptyDB ⟨"a", [3], 1, "e", []⟩ (by decide)
  have h2 := claim_C2.2 emptyDB ⟨"a", [3], 1, "e", []⟩ ⟨"b", [3], 2, "f", []⟩
    rfl (by decide) (by decide) (by decide)
  exact ⟨⟨by decide, h1.1, h1.2.2.1⟩, h2.1, h2.2.1⟩

/-! Claim C3 — what a dedup skip leaves untouched. -/

/-- Record-key frame lemma for the update loop: a key that already exists in
the transaction view is never rewritten, so on commit its stored value is
what it was (and on abort the store is the base anyway). -/
theorem multiUpdateLoop_rec_frame (idxOk : Record → Bool) (base : Store)
    (h : List Nat) :
    ∀ (records : List Record) (txn : Store) (idx : List (List Nat × Record))
      (count : Nat), recordExists txn h = true →
      lookupRec (multiUpdateLoop idxOk base txn idx count records).db.store
          h = lookupRec txn h ∨
      (multiUpdateLoop idxOk base txn idx count records).db.store = base := by
  intro records
  induction records with
  | nil => intro txn idx count _; left; simp [multiUpdateLoop]
  | cons rec rest ih =>
    intro txn idx count hex
    by_cases h1 : rec.hash = []
    · right; simp [multiUpdateLoop, h1]
    · by_cases h2 : recordExists txn rec.hash
      · simpa [multiUpdateLoop, h1, h2] using ih txn idx count hex
      · by_cases h3 : idxOk rec
        · have hne : rec.hash ≠ h := by
            intro heq; rw [heq, hex] at h2; exact h2 rfl
          have hex' : recordExists (updateRecord txn rec) h = true :=
            recordExists_updateRecord txn rec h hex
          have hlook : lookupRec (updateRecord txn rec) h =
              lookupRec txn h := by
            unfold updateRecord
            rw [lookupRec_setFresh, lookupRec_setRec_ne _ _ _ _ hne]
          rcases ih (updateRecord txn rec) (setIdx idx rec.hash rec)
              (count + 1) hex' with hl | hr
          · left; rw [← hlook, ← hl]; simp [multiUpdateLoop, h1, h2, h3]
          · right
            have hstep :
                (multiUpdateLoop idxOk base txn idx count (rec :: rest)) =
                multiUpdateLoop idxOk base (updateRecord txn rec)
                  (setIdx idx rec.hash rec) (count + 1) rest := by
              simp [multiUpdateLoop, h1, h2, h3]
            rw [hstep]; exact hr
        · right; simp [multiUpdateLoop, h1, h2, h3]

/-- Freshness frame lemma for the update loop: the freshness of a URL whose
batch records are all skipped is never rewritten. -/
theorem multiUpdateLoop_fresh_frame (idxOk : Record → Bool) (base : Store)
    (u : String) :
    ∀ (records : List Record) (txn : Store) (idx : List (List Nat × Record))
      (count : Nat),
      (∀ r' ∈ records, r'.url = u → recordExists txn r'.hash = true) →
      lookupFresh (multiUpdateLoop idxOk base txn idx count records).db.store
          u = lookupFresh txn u ∨
      (multiUpdateLoop idxOk base txn idx count records).db.store = base := by
  intro records
  induction records with
  | nil => intro txn idx count _; left; simp [multiUpdateLoop]
  | cons rec rest ih =>
    intro txn idx count hall
    by_cases h1 : rec.hash = []
    · right; simp [multiUpdateLoop, h1]
    · by_cases h2 : recordExists txn rec.hash
      · have hall' : ∀ r' ∈ rest, r'.url = u →
            recordExists txn r'.hash = true :=
          fun r' hmem => hall r' (List.mem_cons_of_mem rec hmem)
        simpa [multiUpdateLoop, h1, h2] using ih txn idx count hall'
      · by_cases h3 : idxOk rec
        · have hurl : rec.url ≠ u := by
            intro heq
            exact h2 (hall rec (List.mem_cons_self rec rest) heq)
          have hlook : lookupFresh (updateRecord txn rec) u =
              lookupFresh txn u := by
            unfold updateRecord
            rw [lookupFresh_setFresh_ne _ _ _ _ hurl, lookupFresh_setRec]
          have hall' : ∀ r' ∈ rest, r'.url = u →
              recordExists (updateRecord txn rec) r'.hash = true :=
            fun r' hmem hu => recordExists_updateRecord txn rec r'.hash
              (hall r' (List.mem_cons_of_mem rec hmem) hu)
          rcases ih (updateRecord txn rec) (setIdx idx rec.hash rec)
              (count + 1) hall' with hl | hr
          · left; rw [← hlook, ← hl]; simp [multiUpdateLoop, h1, h2, h3]
          · right
            have hstep :
                (multiUpdateLoop idxOk base txn idx count (rec :: rest)) =
                multiUpdateLoop idxOk base (updateRecord txn rec)
                  (setIdx idx rec.hash rec) (count + 1) rest := by
              simp [multiUpdateLoop, h1, h2, h3]
            rw [hstep]; exact hr
        · right; simp [multiUpdateLoop, h1, h2, h3]

/-- C3 counterexample: the claim as stated fails when the batch that skips a
record also inserts a different record of the same source URL.  Here the
store already holds the record of hash [1] for URL "u" with freshness
(1, "a"); the batch offers that record again (skipped) together with a new
record of hash [2] from the same URL; after the call the freshness of "u"
has moved to (5, "b"), so the skipped record's source freshness was NOT left
unchanged by the call. -/
theorem claim_C3_cex :
    recordExists
      (⟨⟨[([1], ⟨"u", [1], 1, "a", []⟩)], [("u", ⟨1, "a"⟩)]⟩, []⟩ : DB).store
      [1] = true ∧
    (⟨"u", [1], 1, "a", []⟩ : Record) ∈
      [(⟨"u", [1], 1, "a", []⟩ : Record), ⟨"u", [2], 5, "b", []⟩] ∧
    lookupFresh (MultiUpdateRecord allIdxOk
        ⟨⟨[([1], ⟨"u", [1], 1, "a", []⟩)], [("u", ⟨1, "a"⟩)]⟩, []⟩
        [⟨"u", [1], 1, "a", []⟩, ⟨"u", [2], 5, "b", []⟩]).db.store "u" ≠
      lookupFresh
        (⟨⟨[([1], ⟨"u", [1], 1, "a", []⟩)], [("u", ⟨1, "a"⟩)]⟩, []⟩ : DB).store
        "u" := by
  decide

/-- C3 amended: a record whose hash already exists in the primary store is
skipped by MultiUpdateRecord — its stored record blob is not rewritten — and
its source URL's freshness entry is left unchanged by the call provided no
other record of the batch with that same source URL is newly inserted (all
batch records with that URL already exist in the pre-state). -/
theorem claim_C3_amended (idxOk : Record → Bool) (db : DB)
    (records : List Record) (rec : Record) (hmem : rec ∈ records)
    (hex : recordExists db.store rec.hash = true) :
    lookupRec (MultiUpdateRecord idxOk db records).db.store rec.hash =
      lookupRec db.store rec.hash ∧
    ((∀ r' ∈ records, r'.url = rec.url →
        recordExists db.store r'.hash = true) →
      lookupFresh (MultiUpdateRecord idxOk db records).db.store rec.url =
        lookupFresh db.store rec.url) := by
  have _ := hmem
  constructor
  · rcases multiUpdateLoop_rec_frame idxOk db.store rec.hash records db.store
        db.index 0 hex with hl | hr
    · exact hl
    · unfold MultiUpdateRecord; rw [hr]
  · intro hall
    rcases multiUpdateLoop_fresh_frame idxOk db.store rec.url records
        db.store db.index 0 hall with hl | hr
    · exact hl
    · unfold MultiUpdateRecord; rw [hr]

/-- Witness for C3 (amended): a singleton batch re-offering an
already-stored record leaves both its record blob and its source freshness
untouched. -/
theorem claim_C3_witness :
    ((⟨"u", [1], 1, "a", []⟩ : Record) ∈ [(⟨"u", [1], 1, "a", []⟩ : Record)] ∧
      recordExists
        (⟨⟨[([1], ⟨"u", [1], 1, "a", []⟩)], [("u", ⟨1, "a"⟩)]⟩, []⟩ : DB).store
        [1] = true) ∧
    (lookupRec (MultiUpdateRecord allIdxOk
        ⟨⟨[([1], ⟨"u", [1], 1, "a", []⟩)], [("u", ⟨1, "a"⟩)]⟩, []⟩
        [⟨"u", [1], 1, "a", []⟩]).db.store [1] =
      lookupRec
        (⟨⟨[([1], ⟨"u", [1], 1, "a", []⟩)], [("u", ⟨1, "a"⟩)]⟩, []⟩ : DB).store
        [1] ∧
    ((∀ r' ∈ [(⟨"u", [1], 1, "a", []⟩ : Record)], r'.url = "u" →
        recordExists
          (⟨⟨[([1], ⟨"u", [1], 1, "a", []⟩)], [("u", ⟨1, "a"⟩)]⟩, []⟩ : DB).store
          r'.hash = true) →
      lookupFresh (MultiUpdateRecord allIdxOk
          ⟨⟨[([1], ⟨"u", [1], 1, "a", []⟩)], [("u", ⟨1, "a"⟩)]⟩, []⟩
          [⟨"u", [1], 1, "a", []⟩]).db.store "u" =
        lookupFresh
          (⟨⟨[([1], ⟨"u", [1], 1, "a", []⟩)], [("u", ⟨1, "a"⟩)]⟩, []⟩ : DB).store
          "u")) :=
  ⟨⟨by decide, by decide⟩,
    claim_C3_amended allIdxOk
      ⟨⟨[([1], ⟨"u", [1], 1, "a", []⟩)], [("u", ⟨1, "a"⟩)]⟩, []⟩
      [⟨"u", [1], 1, "a", []⟩] ⟨"u", [1], 1, "a", []⟩ (by decide) (by decide)⟩

/-! Claim C5 — transaction boundary between primary store and search
index. -/

/-- C5 counterexample: the claim says a failure of the search-index update
does not abort or roll back the primary-store commit of the record and its
freshness.  In the code the index.Index call runs inside the db.Update
closure, so when it fails for the single new record of this batch the badger
transaction is discarded: the call errors and the primary store still holds
neither the record nor the freshness entry — the index failure rolled the
commit back. -/
theorem claim_C5_cex :
    (MultiUpdateRecord (fun _ => false) emptyDB
      [⟨"u", [1], 1, "e", []⟩]).errored = true ∧
    (MultiUpdateRecord (fun _ => false) emptyDB
      [⟨"u", [1], 1, "e", []⟩]).db.store = emptyStore ∧
    lookupRec (MultiUpdateRecord (fun _ => false) emptyDB
      [⟨"u", [1], 1, "e", []⟩]).db.store [1] = none ∧
    lookupFresh (MultiUpdateRecord (fun _ => false) emptyDB
      [⟨"u", [1], 1, "e", []⟩]).db.store "u" = none := by
  decide

/-- C5 amended: a newly inserted record's write and its source's freshness
update belong to one all-or-nothing badger transaction, but the search-index
update runs inside that same update closure, before the commit: when the
index update succeeds, record, freshness and index document are all in place
and the call reports one insert; when the index update fails, the whole
transaction is aborted — the primary store is rolled back and the call
errors; and an index write performed for an earlier record of the batch
survives a later abort, because bleve is not covered by the badger
transaction. -/
theorem claim_C5_amended (idxOk : Record → Bool) (db : DB) (r : Record)
    (h1 : r.hash ≠ []) (h2 : recordExists db.store r.hash = false) :
    (idxOk r = true →
      (MultiUpdateRecord idxOk db [r]).errored = false ∧
      (MultiUpdateRecord idxOk db [r]).count = 1 ∧
      lookupRec (MultiUpdateRecord idxOk db [r]).db.store r.hash = some r ∧
      lookupFresh (MultiUpdateRecord idxOk db [r]).db.store r.url =
        some ⟨r.date, r.etag⟩ ∧
      lookupIdx (MultiUpdateRecord idxOk db [r]).db.index r.hash = some r) ∧
    (idxOk r = false →
      (MultiUpdateRecord idxOk db [r]).errored = true ∧
      (MultiUpdateRecord idxOk db [r]).db.store = db.store ∧
      (MultiUpdateRecord idxOk db [r]).count = 0) ∧
    (∀ rbad : Record, rbad.hash = [] → idxOk r = true →
      (MultiUpdateRecord idxOk db [r, rbad]).errored = true ∧
      (MultiUpdateRecord idxOk db [r, rbad]).db.store = db.store ∧
      lookupIdx (MultiUpdateRecord idxOk db [r, rbad]).db.index r.hash =
        some r) := by
  refine ⟨?_, ?_, ?_⟩
  · intro hidx
    have hrec : lookupRec (updateRecord db.store r) r.hash = some r := by
      unfold updateRecord; rw [lookupRec_setFresh, lookupRec_setRec_self]
    have hfresh : lookupFresh (updateRecord db.store r) r.url =
        some ⟨r.date, r.etag⟩ := by
      unfold updateRecord; rw [lookupFresh_setFresh_self]
    simp [MultiUpdateRecord, multiUpdateLoop, h1, h2, hidx, hrec, hfresh,
      lookupIdx_setIdx_self]
  · intro hidx
    simp [MultiUpdateRecord, multiUpdateLoop, h1, h2, hidx]
  · intro rbad hbad hidx
    simp [MultiUpdateRecord, multiUpdateLoop, h1, h2, hidx, hbad,
      lookupIdx_setIdx_self]

/-- Witness for C5 (amended) at a concrete new record against the empty
database, with an always-failing and an always-succeeding index probed via
the two branches. -/
theorem claim_C5_witness :
    ((⟨"u", [2], 4, "g", []⟩ : Record).hash ≠ [] ∧
      recordExists emptyDB.store [2] = false) ∧
    (allIdxOk ⟨"u", [2], 4, "g", []⟩ = true →
      (MultiUpdateRecord allIdxOk emptyDB
        [⟨"u", [2], 4, "g", []⟩]).errored = false ∧
      (MultiUpdateRecord allIdxOk emptyDB
        [⟨"u", [2], 4, "g", []⟩]).count = 1 ∧
      lookupRec (MultiUpdateRecord allIdxOk emptyDB
        [⟨"u", [2], 4, "g", []⟩]).db.store [2] =
        some ⟨"u", [2], 4, "g", []⟩ ∧
      lookupFresh (MultiUpdateRecord allIdxOk emptyDB
        [⟨"u", [2], 4, "g", []⟩]).db.store "u" = some ⟨4, "g"⟩ ∧
      lookupIdx (MultiUpdateRecord allIdxOk emptyDB
        [⟨"u", [2], 4, "g", []⟩]).db.index [2] =
        some ⟨"u", [2], 4, "g", []⟩) :=
  ⟨⟨by decide, by decide⟩,
    (claim_C5_amended allIdxOk emptyDB ⟨"u", [2], 4, "g", []⟩ (by decide)
      (by decide)).1⟩

/-! Claim C6 — the non-empty-hash / non-empty-url data invariant. -/

/-- Membership in an overwritten association map: the new binding or an old
one. -/
theorem mem_putKey {α β : Type} [DecidableEq α] (l : List (α × β)) (k : α)
    (v : β) (kv : α × β) (hmem : kv ∈ putKey l k v) :
    kv = (k, v) ∨ kv ∈ l := by
  rcases List.mem_cons.mp hmem with h | h
  · exact Or.inl h
  · exact Or.inr (List.mem_of_mem_filter h)

/-- The update loop only ever inserts record blobs with non-empty hashes. -/
theorem multiUpdateLoop_recs_inv (idxOk : Record → Bool) (base : Store)
    (hbase : recsNonEmptyHash base) :
    ∀ (records : List Record) (txn : Store) (idx : List (List Nat × Record))
      (count : Nat), recsNonEmptyHash txn →
      recsNonEmptyHash
        (multiUpdateLoop idxOk base txn idx count records).db.store := by
  intro records
  induction records with
  | nil => intro txn idx count htxn; simpa [multiUpdateLoop] using htxn
  | cons rec rest ih =>
    intro txn idx count htxn
    by_cases h1 : rec.hash = []
    · simpa [multiUpdateLoop, h1] using hbase
    · by_cases h2 : recordExists txn rec.hash
      · simpa [multiUpdateLoop, h1, h2] using ih txn idx count htxn
      · by_cases h3 : idxOk rec
        · have hins : recsNonEmptyHash (updateRecord txn rec) := by
            intro kv hmem
            rcases mem_putKey txn.recs rec.hash rec kv hmem with heq | hold
            · rw [heq]; exact h1
            · exact htxn kv hold
          simpa [multiUpdateLoop, h1, h2, h3] using
            ih (updateRecord txn rec) (setIdx idx rec.hash rec) (count + 1)
              hins
        · simpa [multiUpdateLoop, h1, h2, h3] using hbase

/-- The update loop only ever inserts freshness blobs keyed by the batch
records' source URLs. -/
theorem multiUpdateLoop_fresh_inv (idxOk : Record → Bool) (base : Store)
    (hbase : freshNonEmptyURL base) :
    ∀ (records : List Record) (txn : Store) (idx : List (List Nat × Record))
      (count : Nat), freshNonEmptyURL txn →
      (∀ r ∈ records, r.url ≠ "") →
      freshNonEmptyURL
        (multiUpdateLoop idxOk base txn idx count records).db.store := by
  intro records
  induction records with
  | nil => intro txn idx count htxn _; simpa [multiUpdateLoop] using htxn
  | cons rec rest ih =>
    intro txn idx count htxn hurls
    have hrest : ∀ r ∈ rest, r.url ≠ "" :=
      fun r hmem => hurls r (List.mem_cons_of_mem rec hmem)
    by_cases h1 : rec.hash = []
    · simpa [multiUpdateLoop, h1] using hbase
    · by_cases h2 : recordExists txn rec.hash
      · simpa [multiUpdateLoop, h1, h2] using ih txn idx count htxn hrest
      · by_cases h3 : idxOk rec
        · have hins : freshNonEmptyURL (updateRecord txn rec) := by
            intro kv hmem
            rcases mem_putKey (setRec txn rec.hash rec).fresh rec.url
                ⟨rec.date, rec.etag⟩ kv hmem with heq | hold
            · rw [heq]; exact hurls rec (List.mem_cons_self rec rest)
            · exact htxn kv hold
          simpa [multiUpdateLoop, h1, h2, h3] using
            ih (updateRecord txn rec) (setIdx idx rec.hash rec) (count + 1)
              hins hrest
        · simpa [multiUpdateLoop, h1, h2, h3] using hbase

/-- IndexURL leaves record blobs untouched. -/
theorem IndexURL_recs (s : Store) (u : String) :
    (IndexURL s u).recs = s.recs := by
  cases h : lookupFresh s u <;> simp [IndexURL, h, setFresh]

/-- IndexURL with a non-empty URL preserves the freshness invariant. -/
theorem IndexURL_fresh_inv (s : Store) (u : String)
    (hs : freshNonEmptyURL s) (hu : u ≠ "") :
    freshNonEmptyURL (IndexURL s u) := by
  cases h : lookupFresh s u with
  | some f => simpa [IndexURL, h] using hs
  | none =>
    intro kv hmem
    simp only [IndexURL, h, setFresh] at hmem
    rcases mem_putKey s.fresh u ⟨0, ""⟩ kv hmem with heq | hold
    · rw [heq]; exact hu
    · exact hs kv hold

/-- C6 counterexample: the operation sequence consisting of registering the
empty source URL, run against the empty database, leaves a persisted Source
Freshness entry whose url is empty — IndexURL stores a zero-valued freshness
blob for whatever URL it is given, without validation. -/
theorem claim_C6_cex :
    ¬ freshNonEmptyURL
      (applyOps allIdxOk emptyDB [StoreOp.indexURL ""]).store := by
  decide

/-- The record half of the invariant is preserved by any operation
sequence. -/
theorem applyOps_recs_inv (idxOk : Record → Bool) :
    ∀ (ops : List StoreOp) (db : DB), recsNonEmptyHash db.store →
      recsNonEmptyHash (applyOps idxOk db ops).store := by
  intro ops
  induction ops with
  | nil => intro db hr; exact hr
  | cons op rest ih =>
    intro db hr
    have hr' : recsNonEmptyHash (applyOp idxOk db op).store := by
      cases op with
      | indexURL u =>
        intro kv hmem
        rw [applyOp, IndexURL_recs] at hmem
        exact hr kv hmem
      | upsertBatch rs =>
        exact multiUpdateLoop_recs_inv idxOk db.store hr rs db.store
          db.index 0 hr
    exact ih (applyOp idxOk db op) hr'

/-- The freshness half of the invariant is preserved when every operation
mentions only non-empty URLs. -/
theorem applyOps_fresh_inv (idxOk : Record → Bool) :
    ∀ (ops : List StoreOp) (db : DB), freshNonEmptyURL db.store →
      (∀ op ∈ ops, opURLsNonEmpty op) →
      freshNonEmptyURL (applyOps idxOk db ops).store := by
  intro ops
  induction ops with
  | nil => intro db hf _; exact hf
  | cons op rest ih =>
    intro db hf hops
    have hf' : freshNonEmptyURL (applyOp idxOk db op).store := by
      cases op with
      | indexURL u =>
        exact IndexURL_fresh_inv db.store u hf
          (hops (.indexURL u) (List.mem_cons_self _ rest))
      | upsertBatch rs =>
        exact multiUpdateLoop_fresh_inv idxOk db.store hf rs db.store
          db.index 0 hf
          (hops (.upsertBatch rs) (List.mem_cons_self _ rest))
    exact ih (applyOp idxOk db op) hf'
      (fun o hmem => hops o (List.mem_cons_of_mem op hmem))

/-- C6 amended: after any sequence of store operations from a database
satisfying the invariant, every persisted Catalog Record still has a
non-empty content hash, unconditionally; and every persisted Source
Freshness entry has a non-empty url provided each operation of the sequence
only mentions non-empty source URLs (the code never validates URLs, so an
empty registered URL or an empty record URL is stored as-is). -/
theorem claim_C6_amended (idxOk : Record → Bool) (db : DB)
    (ops : List StoreOp) (hr : recsNonEmptyHash db.store)
    (hf : freshNonEmptyURL db.store) :
    recsNonEmptyHash (applyOps idxOk db ops).store ∧
    ((∀ op ∈ ops, opURLsNonEmpty op) →
      freshNonEmptyURL (applyOps idxOk db ops).store) :=
  ⟨applyOps_recs_inv idxOk ops db hr,
    fun hops => applyOps_fresh_inv idxOk ops db hf hops⟩

/-- Witness for C6 (amended): registering one non-empty URL and upserting
one well-formed record from the empty database keeps both halves of the
invariant. -/
theorem claim_C6_witness :
    (recsNonEmptyHash emptyDB.store ∧ freshNonEmptyURL emptyDB.store ∧
      (∀ op ∈ [StoreOp.indexURL "http://a.opk",
        StoreOp.upsertBatch [⟨"http://a.opk", [9], 2, "e", []⟩]],
        opURLsNonEmpty op)) ∧
    (recsNonEmptyHash (applyOps allIdxOk emptyDB
      [StoreOp.indexURL "http://a.opk",
        StoreOp.upsertBatch [⟨"http://a.opk", [9], 2, "e", []⟩]]).store ∧
      ((∀ op ∈ [StoreOp.indexURL "http://a.opk",
          StoreOp.upsertBatch [⟨"http://a.opk", [9], 2, "e", []⟩]],
          opURLsNonEmpty op) →
        freshNonEmptyURL (applyOps allIdxOk emptyDB
          [StoreOp.indexURL "http://a.opk",
            StoreOp.upsertBatch [⟨"http://a.opk", [9], 2, "e", []⟩]]).store)) :=
  ⟨⟨by decide, by decide, by decide⟩,
    claim_C6_amended allIdxOk emptyDB
      [StoreOp.indexURL "http://a.opk",
        StoreOp.upsertBatch [⟨"http://a.opk", [9], 2, "e", []⟩]]
      (by decide) (by decide)⟩

/-! Claim C7 — Query error condition, cap, ordering, missing-hit skips. -/

instance : IsTotal (List Nat × Record) docLE :=
  ⟨fun a b => le_total (entriesNameKey a.2) (entriesNameKey b.2)⟩

instance : IsTrans (List Nat × Record) docLE :=
  ⟨fun _ _ _ hab hbc => le_trans hab hbc⟩

/-- A filterMap whose function succeeds on every element is a map. -/
theorem filterMap_eq_map_of_some {α β : Type} (f : α → Option β) (g : α → β) :
    ∀ l : List α, (∀ a ∈ l, f a = some (g a)) → l.filterMap f = l.map g := by
  intro l
  induction l with
  | nil => intro _; rfl
  | cons a tl ih =>
    intro h
    rw [List.filterMap_cons, h a (List.mem_cons_self a tl), List.map_cons,
      ih (fun x hx => h x (List.mem_cons_of_mem a hx))]

/-- C7: Query fails exactly on the empty query string; a non-empty query
succeeds with at most 100 results, every result resolved from the primary
store (hits whose record blob is missing are skipped, never failing the
call), and — whenever the index agrees with the primary store on the
documents it holds — the results come back ordered by entry name. -/
theorem claim_C7 (matchQ : String → Record → Bool) (db : DB) (qry : String) :
    Query matchQ db "" = .error "empty query string" ∧
    (qry ≠ "" → ∃ rs, Query matchQ db qry = Except.ok rs ∧
      rs.length ≤ 100 ∧
      (∀ r ∈ rs, ∃ k, lookupRec db.store k = some r) ∧
      ((∀ k r, (k, r) ∈ db.index → lookupRec db.store k = some r) →
        rs.Pairwise (fun a b => entriesNameKey a ≤ entriesNameKey b))) := by
  constructor
  · simp [Query]
  · intro hq
    refine ⟨((((db.index.filter (fun kv => matchQ qry kv.2)).insertionSort
        docLE).take 100).map (fun kv => kv.1)).filterMap
          (fun id => lookupRec db.store id), ?_, ?_, ?_, ?_⟩
    · simp [Query, hq]
    · refine le_trans (List.length_filterMap_le _ _) ?_
      rw [List.length_map]
      exact List.length_take_le _ _
    · intro r hr
      rcases List.mem_filterMap.mp hr with ⟨id, _, hlook⟩
      exact ⟨id, hlook⟩
    · intro hcons
      have hsorted : List.Sorted docLE
          ((db.index.filter (fun kv => matchQ qry kv.2)).insertionSort
            docLE) :=
        List.sorted_insertionSort docLE _
      have hsortedTake : List.Pairwise docLE
          (((db.index.filter (fun kv => matchQ qry kv.2)).insertionSort
            docLE).take 100) :=
        List.Pairwise.sublist (List.take_sublist 100 _) hsorted
      have hall : ∀ kv ∈ ((db.index.filter
          (fun kv => matchQ qry kv.2)).insertionSort docLE).take 100,
          lookupRec db.store kv.1 = some kv.2 := by
        intro kv hkv
        have h1 : kv ∈ (db.index.filter
            (fun kv => matchQ qry kv.2)).insertionSort docLE :=
          (List.take_sublist 100 _).subset hkv
        have h2 : kv ∈ db.index.filter (fun kv => matchQ qry kv.2) := by
          simpa using h1
        have h3 : kv ∈ db.index := List.mem_of_mem_filter h2
        exact hcons kv.1 kv.2 h3
      have hmap : ((((db.index.filter (fun kv => matchQ qry kv.2)).insertionSort
          docLE).take 100).map (fun kv => kv.1)).filterMap
            (fun id => lookupRec db.store id) =
          (((db.index.filter (fun kv => matchQ qry kv.2)).insertionSort
            docLE).take 100).map (fun kv => kv.2) := by
        rw [List.filterMap_map]
        exact filterMap_eq_map_of_some _ _ _ hall
      rw [hmap]
      exact List.pairwise_map.mpr hsortedTake

/-- Witness for C7 at the concrete query "Foo" against the empty database
with a match-everything collaborator. -/
theorem claim_C7_witness :
    ("Foo" : String) ≠ "" ∧
    (∃ rs, Query (fun _ _ => true) emptyDB "Foo" = Except.ok rs ∧
      rs.length ≤ 100 ∧
      (∀ r ∈ rs, ∃ k, lookupRec emptyDB.store k = some r) ∧
      ((∀ k r, (k, r) ∈ emptyDB.index → lookupRec emptyDB.store k = some r) →
        rs.Pairwise (fun a b => entriesNameKey a ≤ entriesNameKey b))) :=
  ⟨by decide, (claim_C7 (fun _ _ => true) emptyDB "Foo").2 (by decide)⟩

/-! Claim C9 — Stop returns only after all cycle tasks exit. -/

/-- Reachability invariant of the scheduler handshake: once Stop has
returned, Run has finished its shutdown branch, and Run only finishes after
the task counter hit zero. -/
theorem sched_invariant (s : Sched) (h : SchedReach s) :
    (s.stopped = StopCall.returned → s.phase = Phase.done) ∧
    (s.phase = Phase.done → s.tasks = 0) := by
  induction h with
  | init => constructor <;> intro h' <;> simp [schedInit] at h'
  | step hr hstep ih =>
    cases hstep with
    | spawn t c =>
      constructor
      · intro h'
        have := ih.1 h'
        simp at this
      · intro h'
        simp at h'
    | taskExit p t c =>
      constructor
      · intro h'
        exact ih.1 h'
      · intro h'
        have := ih.2 h'
        simp at this
    | stopCall t =>
      constructor
      · intro h'; simp at h'
      · intro h'; simp at h'
    | waitDone c =>
      exact ⟨fun _ => rfl, fun _ => rfl⟩
    | stopReturn t =>
      exact ⟨fun _ => rfl, fun _ => ih.2 rfl⟩

/-- C9: in every reachable scheduler state in which Stop has returned, the
task counter is zero — every spawned fetch-cycle goroutine has exited — the
Run loop is done, and the state is terminal: no further transition (spawn,
exit, stop, or otherwise) is possible.  Stop can therefore only return after
full shutdown. -/
theorem claim_C9 (s : Sched) (h : SchedReach s)
    (hret : s.stopped = StopCall.returned) :
    s.tasks = 0 ∧ s.phase = Phase.done ∧ ∀ t, ¬ SchedStep s t := by
  have inv := sched_invariant s h
  have hp := inv.1 hret
  have ht := inv.2 hp
  refine ⟨ht, hp, ?_⟩
  intro t hstep
  obtain ⟨ph, tk, st⟩ := s
  simp only at hp ht hret
  subst hp; subst ht; subst hret
  cases hstep

/-- Witness for C9: an explicit interleaving — spawn a cycle, receive Stop,
let the cycle exit, finish wg.Wait, close the quit channel — reaching the
returned state, to which the theorem applies. -/
theorem claim_C9_witness :
    SchedReach ⟨Phase.done, 0, StopCall.returned⟩ ∧
    ((⟨Phase.done, 0, StopCall.returned⟩ : Sched).tasks = 0 ∧
      (⟨Phase.done, 0, StopCall.returned⟩ : Sched).phase = Phase.done ∧
      ∀ t, ¬ SchedStep ⟨Phase.done, 0, StopCall.returned⟩ t) := by
  have h0 : SchedReach schedInit := SchedReach.init
  have h1 : SchedReach ⟨Phase.looping, 1, StopCall.notCalled⟩ :=
    SchedReach.step h0 (SchedStep.spawn 0 StopCall.notCalled)
  have h2 : SchedReach ⟨Phase.stopping, 1, StopCall.waiting⟩ :=
    SchedReach.step h1 (SchedStep.stopCall 1)
  have h3 : SchedReach ⟨Phase.stopping, 0, StopCall.waiting⟩ :=
    SchedReach.step h2 (SchedStep.taskExit Phase.stopping 0 StopCall.waiting)
  have h4 : SchedReach ⟨Phase.done, 0, StopCall.waiting⟩ :=
    SchedReach.step h3 (SchedStep.waitDone StopCall.waiting)
  have h5 : SchedReach ⟨Phase.done, 0, StopCall.returned⟩ :=
    SchedReach.step h4 (SchedStep.stopReturn 0)
  exact ⟨h5, claim_C9 ⟨Phase.done, 0, StopCall.returned⟩ h5 rfl⟩

end Opkcat
